import Mathlib

/-!
Verification of the dfuse-io/rpc JSON-RPC 2.0 codec (package json2).

The development shallowly embeds the Go sources:
  * v2/json2/utils.go   : structFieldsToFieldsSlice and StructFields.UnmarshalJSON
                          (positional parameter binding)
  * v2/json2/client.go  : clientRequest / clientResponse / EncodeClientRequest
  * v2/json2/json_test.go : the Service1 fixture (Multiply and friends)
Server-side codec behaviour (request decoding, batch handling, error mapping)
is not part of the sources and is modelled from the specification where a
claim needs it; each such definition is marked in its doc comment.

JSON documents are modelled as an inductive tree; Go machine integers are
modelled as Int with explicit 64-bit wrap where overflow can occur.
-/

namespace Json2

/-- A JSON document.  Numbers are restricted to integers, which covers every
value exchanged by the code under verification (ids, int fields). -/
inductive Json where
  | null : Json
  | bool (b : Bool) : Json
  | num (n : Int) : Json
  | str (s : String) : Json
  | arr (elems : List Json) : Json
  | obj (fields : List (String × Json)) : Json

/-- First value bound to key `k` in an object field list (encoding/json and
gjson both take the first match on duplicate keys when scanning). -/
def lookupKey : List (String × Json) → String → Option Json
  | [], _ => none
  | (k2, v) :: rest, k => if k2 = k then some v else lookupKey rest k

/-- Whether a JSON object carries key `k`; false on non-objects. -/
def hasField (j : Json) (k : String) : Bool :=
  match j with
  | Json.obj kvs => (lookupKey kvs k).isSome
  | _ => false

/-- Project a JSON string. -/
def asString : Json → Option String
  | Json.str s => some s
  | _ => none

/-- The name gjson gives a value in `result.Type`: objects and arrays both
print as JSON, the scalar types have their own names. -/
def gjsonTypeName : Json → String
  | Json.null => "Null"
  | Json.bool true => "True"
  | Json.bool false => "False"
  | Json.num _ => "Number"
  | Json.str _ => "String"
  | Json.arr _ => "JSON"
  | Json.obj _ => "JSON"

/-! ## Go values and field slots

`StructFields` in Go is a slice of `interface{}` pointers obtained from the
fields of a target struct; `json.Unmarshal` decodes each array element
through the pointer.  A field slot is modelled as its declared Go type
together with the value currently stored in it; mutation through the pointer
becomes state passing on the slot list. -/

/-- The Go types that occur as struct fields in this code base. -/
inductive GoType where
  | intT : GoType
  | stringT : GoType
  | boolT : GoType
  deriving DecidableEq, Repr

/-- `reflect`-style name of a Go type. -/
def GoType.name : GoType → String
  | GoType.intT => "int"
  | GoType.stringT => "string"
  | GoType.boolT => "bool"

/-- A Go scalar value stored in a struct field. -/
inductive GoValue where
  | intV (n : Int) : GoValue
  | strV (s : String) : GoValue
  | boolV (b : Bool) : GoValue
  deriving DecidableEq, Repr

/-- One typed field slot of the target struct: declared type and current
contents (the l-value the Go code reaches through the field pointer). -/
structure FieldSlot where
  type : GoType
  value : GoValue
  deriving DecidableEq, Repr

/-- `json.Unmarshal(raw, ptr)` for a scalar target: JSON null leaves the
target untouched and succeeds, a matching scalar overwrites it, anything
else is a type error. -/
def decodeAs (t : GoType) (j : Json) (old : GoValue) : Option GoValue :=
  match t, j with
  | _, Json.null => some old
  | GoType.intT, Json.num n => some (GoValue.intV n)
  | GoType.stringT, Json.str s => some (GoValue.strV s)
  | GoType.boolT, Json.bool b => some (GoValue.boolV b)
  | _, _ => none

/-- The failures `StructFields.UnmarshalJSON` can report, carrying exactly
the data its `fmt.Errorf` calls interpolate. -/
inductive BindError where
  | notArray (gotType : String) : BindError
  | lengthMismatch (elemCount : Nat) (fieldCount : Nat) : BindError
  | fieldDecode (index : Nat) (fieldType : GoType) : BindError
  deriving DecidableEq, Repr

/-- The rendered error text of utils.go.  The field-decode message prints the
reference with %T, i.e. the pointer type `*int`, and wraps the inner
json.Unmarshal error (elided here). -/
def BindError.message : BindError → String
  | BindError.notArray got => "expected array but got " ++ got
  | BindError.lengthMismatch k m =>
      "input array has " ++ toString k ++
      " elements but we are trying to unserialize in only " ++ toString m ++
      " struct fields"
  | BindError.fieldDecode i t =>
      "unable to marshal JSON into field " ++ toString i ++ " of type *" ++ t.name

/-- The element loop of `StructFields.UnmarshalJSON`: decode element `i` into
slot `i`; on the first failure stop, keeping the slots already written and
leaving the rest untouched.  `i` is the index of the first element of `elems`
inside the original array. -/
def bindLoop (i : Nat) : List Json → List FieldSlot → List FieldSlot × Option BindError
  | _, [] => ([], none)
  | [], fs => (fs, none)
  | e :: es, f :: fs =>
    match decodeAs f.type e f.value with
    | none => (f :: fs, some (BindError.fieldDecode i f.type))
    | some v =>
      let rest := bindLoop (i + 1) es fs
      ({ f with value := v } :: rest.1, rest.2)

/-- `StructFields.UnmarshalJSON` of utils.go: parse the payload, require a
JSON array, require its length to equal the number of field slots, then
decode element-wise.  The returned slot list is the post-call state of the
target struct fields. -/
def unmarshalStructFields (data : Json) (fields : List FieldSlot) :
    List FieldSlot × Option BindError :=
  match data with
  | Json.arr elems =>
    if elems.length = fields.length then
      bindLoop 0 elems fields
    else
      (fields, some (BindError.lengthMismatch elems.length fields.length))
  | other => (fields, some (BindError.notArray (gjsonTypeName other)))

/-! ## structFieldsToFieldsSlice (utils.go)

The reflection argument is modelled by the shapes the function inspects: a
pointer to a struct of `n` fields, or a non-pointer value of some kind.  A
pointer to the i-th field is modelled as the index i into the struct in
declaration order. -/

/-- The `reflect.Kind` names the function can print. -/
inductive GoKind where
  | ptrKind : GoKind
  | intKind : GoKind
  | stringKind : GoKind
  | boolKind : GoKind
  | structKind : GoKind
  | sliceKind : GoKind
  deriving DecidableEq, Repr

/-- `reflect.Kind.String()`. -/
def GoKind.name : GoKind → String
  | GoKind.ptrKind => "ptr"
  | GoKind.intKind => "int"
  | GoKind.stringKind => "string"
  | GoKind.boolKind => "bool"
  | GoKind.structKind => "struct"
  | GoKind.sliceKind => "slice"

/-- The values `structFieldsToFieldsSlice` is called on: a pointer to a
struct (the supported case), or a non-pointer value of one of the scalar or
composite kinds.  A pointer to a non-struct is not modelled: on it the Go
code would panic in `val.NumField()`, and no claim concerns it. -/
inductive ReflectValue where
  | ptrToStruct (fields : List FieldSlot) : ReflectValue
  | nonPtr (kind : GoKind) : ReflectValue
  deriving DecidableEq, Repr

/-- `reflect.ValueOf(u).Kind()`. -/
def ReflectValue.kind : ReflectValue → GoKind
  | ReflectValue.ptrToStruct _ => GoKind.ptrKind
  | ReflectValue.nonPtr k => k

/-- `structFieldsToFieldsSlice` of utils.go: reject non-pointers naming the
actual kind, otherwise return the addresses of the pointed-to struct fields
in declaration order (field pointers modelled as field indices). -/
def structFieldsToFieldsSlice : ReflectValue → Except String (List Nat)
  | ReflectValue.ptrToStruct fs => Except.ok (List.range fs.length)
  | ReflectValue.nonPtr k =>
      Except.error ("input argument must be a pointer, got " ++ k.name)

/-! ## Error taxonomy and error objects

The `Error` type and the `E_*` codes live in the json2 server codec, which is
not among the sources; the values below are the protocol-visible codes fixed
by the specification's taxonomy table. -/

/-- Modelled from the spec: the fixed JSON-RPC error-code enumeration
(`ErrorCode` of the json2 package, absent from the sources). -/
def E_PARSE : Int := -32700

/-- Modelled from the spec: envelope missing required fields or malformed. -/
def E_INVALID_REQ : Int := -32600

/-- Modelled from the spec: method not found in registry. -/
def E_NO_METHOD : Int := -32601

/-- Modelled from the spec: params cannot be bound to the argument shape. -/
def E_BAD_PARAMS : Int := -32602

/-- Modelled from the spec: internal codec/server fault. -/
def E_INTERNAL : Int := -32603

/-- Modelled from the spec: unmapped handler error, default bucket. -/
def E_SERVER : Int := -32000

/-- Modelled from the spec: the typed JSON-RPC error object
`{code, message, data}` (the json2 `Error` struct, absent from the
sources). -/
structure ErrorObject where
  code : Int
  message : String
  data : Option Json

/-- A Go `error` value as the codec sees it: either already a typed json2
error object, or a generic error whose only observable is its
`Error()` text. -/
inductive GoError where
  | typed (e : ErrorObject) : GoError
  | generic (msg : String) : GoError

/-- `err.Error()`: the textual description of a Go error. -/
def GoError.text : GoError → String
  | GoError.typed e => e.message
  | GoError.generic msg => msg

/-- Modelled from the spec: `EncodeError`'s handler-error conversion (absent
from the sources).  The handler error is first passed through the optional
user-supplied mapping function; a typed `Error` result is used verbatim,
anything else is wrapped with code `E_SERVER` and the error text as
message. -/
def encodeHandlerError (mapper : Option (GoError → GoError)) (err : GoError) :
    ErrorObject :=
  let mapped := match mapper with
    | some m => m err
    | none => err
  match mapped with
  | GoError.typed e => e
  | GoError.generic msg => { code := E_SERVER, message := msg, data := none }

/-! ## client.go -/

/-- `clientRequest` of client.go: the JSON-RPC request a client sends.  The
field types and json tags are those of the Go struct; in particular `Id` is a
plain uint64 (modelled as Nat) with tag `json:"id"` and no omitempty. -/
structure ClientRequest where
  Version : String
  Method : String
  Params : Json
  Id : Nat

/-- `json.Marshal` of a `clientRequest`: encoding/json emits every field in
declaration order under its json tag; none of the tags carries omitempty, so
all four keys are always present. -/
def marshalClientRequest (c : ClientRequest) : Json :=
  Json.obj [("jsonrpc", Json.str c.Version),
            ("method", Json.str c.Method),
            ("params", c.Params),
            ("id", Json.num (Int.ofNat c.Id))]

/-- `EncodeClientRequest` of client.go: wrap method and args in a version-2.0
envelope and marshal it.  The Go code draws the id from `rand.Int63()`; the
drawn value is passed explicitly here. -/
def encodeClientRequest (method : String) (args : Json) (id : Nat) : Json :=
  marshalClientRequest
    { Version := "2.0", Method := method, Params := args, Id := id }

/-- `clientResponse` of client.go: version, raw result, raw error (a missing
key decodes to a nil RawMessage, i.e. `none`). -/
structure ClientResponse where
  Version : String
  Result : Option Json
  Error : Option Json

/-! ## Server-side request processing (modelled from the spec)

The json2 server codec (request decoder, batch handling, response encoder,
error mapper hook) is not among the sources; the definitions of this section
are modelled from the specification, sections 4.2, 4.4 and 7. -/

/-- Modelled from the spec: one logical request record produced by the
request decoder — method name, raw params, id (present/absent plus value),
and a validity flag for structurally invalid envelopes (missing method or
wrong version). -/
structure RequestRecord where
  method : String
  params : Option Json
  id : Option Json
  valid : Bool

/-- Modelled from the spec: parsing one JSON value into a request record.
A non-object envelope is an invalid record; an object is valid when its
`jsonrpc` field is the string 2.0 and a string `method` field is present. -/
def parseRecord : Json → RequestRecord
  | Json.obj kvs =>
    let version := (lookupKey kvs "jsonrpc").bind asString
    let methodField := (lookupKey kvs "method").bind asString
    { method := methodField.getD ""
      params := lookupKey kvs "params"
      id := lookupKey kvs "id"
      valid := version == some "2.0" && methodField.isSome }
  | _ => { method := "", params := none, id := none, valid := false }

/-- Modelled from the spec: a response record — exactly one of result/error
present, id echoing the request id. -/
structure Response where
  result : Option Json
  error : Option ErrorObject
  id : Option Json

/-- Modelled from the spec: the fixed invalid-request error object, produced
by the codec itself and never passed through the user mapping function. -/
def invalidRequestError : ErrorObject :=
  { code := E_INVALID_REQ, message := "rpc: invalid request", data := none }

/-- Modelled from the spec: the fixed parse error object for payloads that
are not valid JSON. -/
def parseError : ErrorObject :=
  { code := E_PARSE, message := "rpc: parse error", data := none }

/-- Modelled from the spec: dispatch-and-encode for one request record.
A record with absent id is a notification and produces no response.  An
invalid envelope produces the fixed `E_INVALID_REQ` error, bypassing the
mapper.  Otherwise the external handler runs; a result is echoed back, a
handler error goes through `encodeHandlerError`. -/
def respondRecord (mapper : Option (GoError → GoError))
    (handler : String → Option Json → Except GoError Json)
    (r : RequestRecord) : Option Response :=
  match r.id with
  | none => none
  | some idv =>
    if r.valid then
      match handler r.method r.params with
      | Except.ok result =>
          some { result := some result, error := none, id := some idv }
      | Except.error e =>
          some { result := none, error := some (encodeHandlerError mapper e),
                 id := some idv }
    else
      some { result := none, error := some invalidRequestError, id := some idv }

/-- A payload as it arrives from the transport: either a JSON document or
bytes that are not valid JSON. -/
inductive RawPayload where
  | valid (j : Json) : RawPayload
  | invalid (raw : String) : RawPayload

/-- Modelled from the spec: the whole codec pipeline for one HTTP body.
Invalid JSON yields exactly one `E_PARSE` response.  An array is a batch:
empty batches are themselves invalid requests; otherwise each element is
parsed and answered in order, notifications contributing nothing.  An object
is a single request; any other top-level value is an invalid request. -/
def processPayload (mapper : Option (GoError → GoError))
    (handler : String → Option Json → Except GoError Json) :
    RawPayload → List Response
  | RawPayload.invalid _ =>
      [{ result := none, error := some parseError, id := none }]
  | RawPayload.valid (Json.arr items) =>
      if items.isEmpty then
        [{ result := none, error := some invalidRequestError, id := none }]
      else
        items.filterMap (fun j => respondRecord mapper handler (parseRecord j))
  | RawPayload.valid (Json.obj kvs) =>
      (respondRecord mapper handler (parseRecord (Json.obj kvs))).toList
  | RawPayload.valid _ =>
      [{ result := none, error := some invalidRequestError, id := none }]

/-! ## The Service1 fixture (json_test.go) -/

/-- `Service1Request` of json_test.go; the fields are Go ints. -/
structure Service1Request where
  A : Int
  B : Int

/-- `Service1Response` of json_test.go. -/
structure Service1Response where
  Result : Int

/-- `Service1DefaultResponse` of json_test.go. -/
def Service1DefaultResponse : Int := 9999

/-- Two's-complement wrap of 64-bit Go int arithmetic. -/
def wrap64 (x : Int) : Int := (x + 2 ^ 63) % 2 ^ 64 - 2 ^ 63

/-- `Service1.Multiply` of json_test.go: an all-zero argument gets the
sentinel default response, anything else the product (Go int
multiplication, hence 64-bit wrap); the returned Go error is always nil. -/
def multiply (req : Service1Request) : Service1Response × Option GoError :=
  if req.A = 0 ∧ req.B = 0 then
    ({ Result := Service1DefaultResponse }, none)
  else
    ({ Result := wrap64 (req.A * req.B) }, none)

/-! ## Helper lemmas about the binding loop -/

/-- A default slot, used only as the `getD` fallback in statements. -/
def defaultSlot : FieldSlot := { type := GoType.intT, value := GoValue.intV 0 }

/-- Decoding one array element into one field slot. -/
def decodeSlot (e : Json) (f : FieldSlot) : Option GoValue :=
  decodeAs f.type e f.value

theorem bindLoop_no_lengthMismatch (es : List Json) :
    ∀ (i : Nat) (fs : List FieldSlot) (k m : Nat),
      (bindLoop i es fs).2 ≠ some (BindError.lengthMismatch k m) := by
  induction es with
  | nil =>
    intro i fs k m
    cases fs <;> simp [bindLoop]
  | cons e es ih =>
    intro i fs k m
    cases fs with
    | nil => simp [bindLoop]
    | cons f fs =>
      simp only [bindLoop]
      cases h : decodeAs f.type e f.value with
      | none => simp
      | some v => simpa using ih (i + 1) fs k m

theorem bindLoop_ok_of_all_decode (es : List Json) :
    ∀ (fs : List FieldSlot) (i : Nat), es.length = fs.length →
      (∀ j, j < fs.length →
        (decodeSlot (es.getD j Json.null) (fs.getD j defaultSlot)).isSome) →
      (bindLoop i es fs).2 = none := by
  induction es with
  | nil =>
    intro fs i hlen _
    cases fs with
    | nil => simp [bindLoop]
    | cons f fs => simp at hlen
  | cons e es ih =>
    intro fs i hlen hall
    cases fs with
    | nil => simp at hlen
    | cons f fs =>
      have hhead := hall 0 (by simp)
      simp only [List.getD_cons_zero, decodeSlot, Option.isSome_iff_exists] at hhead
      obtain ⟨v, hv⟩ := hhead
      simp only [bindLoop, hv]
      exact ih fs (i + 1) (by simpa using hlen)
        (fun j hj => by simpa using hall (j + 1) (by simpa using hj))

theorem bindLoop_elementwise_of_ok (es : List Json) :
    ∀ (fs : List FieldSlot) (i : Nat), es.length = fs.length →
      (bindLoop i es fs).2 = none →
      ∀ j, j < fs.length →
        decodeSlot (es.getD j Json.null) (fs.getD j defaultSlot) =
          some (((bindLoop i es fs).1.getD j defaultSlot).value) := by
  induction es with
  | nil =>
    intro fs i hlen _ j hj
    cases fs with
    | nil => simp at hj
    | cons f fs => simp at hlen
  | cons e es ih =>
    intro fs i hlen hok j hj
    cases fs with
    | nil => simp at hj
    | cons f fs =>
      cases hv : decodeAs f.type e f.value with
      | none => simp [bindLoop, hv] at hok
      | some v =>
        simp only [bindLoop, hv] at hok ⊢
        cases j with
        | zero => simp [decodeSlot, hv]
        | succ j =>
          simpa using ih fs (i + 1) (by simpa using hlen) hok j (by simpa using hj)

theorem bindLoop_first_failure (es : List Json) :
    ∀ (fs : List FieldSlot) (i : Nat) (j : Nat),
      j < fs.length → j < es.length →
      (∀ l, l < j →
        (decodeSlot (es.getD l Json.null) (fs.getD l defaultSlot)).isSome) →
      decodeSlot (es.getD j Json.null) (fs.getD j defaultSlot) = none →
      (bindLoop i es fs).2 =
        some (BindError.fieldDecode (i + j) (fs.getD j defaultSlot).type) := by
  induction es with
  | nil =>
    intro fs i j _ hje _ _
    simp at hje
  | cons e es ih =>
    intro fs i j hjf hje hprev hfail
    cases fs with
    | nil => simp at hjf
    | cons f fs =>
      cases j with
      | zero =>
        simp only [List.getD_cons_zero, decodeSlot] at hfail
        simp [bindLoop, hfail]
      | succ j =>
        have hhead := hprev 0 (by simp)
        simp only [List.getD_cons_zero, decodeSlot, Option.isSome_iff_exists] at hhead
        obtain ⟨v, hv⟩ := hhead
        simp only [bindLoop, hv]
        have := ih fs (i + 1) j (by simpa using hjf) (by simpa using hje)
          (fun l hl => by simpa using hprev (l + 1) (by simpa using hl))
          (by simpa using hfail)
        simpa [Nat.add_comm, Nat.add_left_comm, Nat.add_assoc] using this

/-! ## Claim theorems for the positional binder -/

/-- C1: binding a positional array of length k against m field slots fails
whenever k ≠ m with an error carrying both counts (and whose rendered
message prints both), leaves the fields untouched (no truncation, no
zero-fill), and when k = m the length check passes: no length-mismatch
error can be produced. -/
theorem unmarshal_positional_arity (elems : List Json) (fields : List FieldSlot) :
    (elems.length ≠ fields.length →
      unmarshalStructFields (Json.arr elems) fields =
        (fields, some (BindError.lengthMismatch elems.length fields.length)) ∧
      (BindError.lengthMismatch elems.length fields.length).message =
        "input array has " ++ toString elems.length ++
        " elements but we are trying to unserialize in only " ++
        toString fields.length ++ " struct fields") ∧
    (elems.length = fields.length →
      ∀ k m, (unmarshalStructFields (Json.arr elems) fields).2 ≠
        some (BindError.lengthMismatch k m)) := by
  constructor
  · intro hne
    constructor
    · simp [unmarshalStructFields, hne]
    · rfl
  · intro heq k m
    simp only [unmarshalStructFields, heq, if_pos rfl]
    exact bindLoop_no_lengthMismatch elems 0 fields k m

/-- Witness for C1 at the concrete mismatch k = 1, m = 0. -/
theorem unmarshal_positional_arity_witness :
    unmarshalStructFields (Json.arr [Json.num 1]) [] =
      ([], some (BindError.lengthMismatch 1 0)) :=
  ((unmarshal_positional_arity [Json.num 1] []).1 (by decide)).1

/-- C2: with matching lengths, the i-th array element is decoded into the
i-th field slot in field order — if every element decodes the bind succeeds
and the i-th resulting slot holds the i-th decoded value; if the i-th
element is the first to fail to decode, the whole bind fails with an error
naming index i and the slot's declared type. -/
theorem unmarshal_positional_elementwise (elems : List Json)
    (fields : List FieldSlot) (hlen : elems.length = fields.length) :
    ((∀ i, i < fields.length →
        (decodeSlot (elems.getD i Json.null) (fields.getD i defaultSlot)).isSome) →
      (unmarshalStructFields (Json.arr elems) fields).2 = none) ∧
    ((unmarshalStructFields (Json.arr elems) fields).2 = none →
      ∀ i, i < fields.length →
        decodeSlot (elems.getD i Json.null) (fields.getD i defaultSlot) =
          some (((unmarshalStructFields (Json.arr elems) fields).1.getD i
            defaultSlot).value)) ∧
    (∀ i, i < fields.length →
      (∀ j, j < i →
        (decodeSlot (elems.getD j Json.null) (fields.getD j defaultSlot)).isSome) →
      decodeSlot (elems.getD i Json.null) (fields.getD i defaultSlot) = none →
      (unmarshalStructFields (Json.arr elems) fields).2 =
        some (BindError.fieldDecode i (fields.getD i defaultSlot).type)) := by
  simp only [unmarshalStructFields, hlen, if_pos rfl]
  refine ⟨fun hall => bindLoop_ok_of_all_decode elems fields 0 hlen hall,
    fun hok i hi => bindLoop_elementwise_of_ok elems fields 0 hlen hok i hi,
    fun i hi hprev hfail => ?_⟩
  simpa using bindLoop_first_failure elems fields 0 i hi (hlen ▸ hi) hprev hfail

/-- Witness for C2: a one-element array whose element does not decode into
an int slot fails naming index 0 and type int. -/
theorem unmarshal_positional_elementwise_witness :
    (unmarshalStructFields (Json.arr [Json.str "x"])
        [{ type := GoType.intT, value := GoValue.intV 0 }]).2 =
      some (BindError.fieldDecode 0 GoType.intT) := by
  refine (unmarshal_positional_elementwise [Json.str "x"]
      [{ type := GoType.intT, value := GoValue.intV 0 }] rfl).2.2 0 (by decide)
      (fun j hj => absurd hj (by simp)) (by decide)

/-- C10: when the payload is not a JSON array, or is an array whose length
differs from the field count, the binder fails before touching any slot:
the returned slot state is exactly the prior one. -/
theorem unmarshal_early_failure_atomic (data : Json) (fields : List FieldSlot) :
    ((∀ es, data ≠ Json.arr es) →
      unmarshalStructFields data fields =
        (fields, some (BindError.notArray (gjsonTypeName data)))) ∧
    (∀ es, data = Json.arr es → es.length ≠ fields.length →
      unmarshalStructFields data fields =
        (fields, some (BindError.lengthMismatch es.length fields.length))) := by
  constructor
  · intro hne
    cases data with
    | arr es => exact absurd rfl (hne es)
    | null => rfl
    | bool b => rfl
    | num n => rfl
    | str s => rfl
    | obj kvs => rfl
  · intro es hdata hlen
    subst hdata
    simp [unmarshalStructFields, hlen]

/-- Witness for C10: a JSON object payload fails as not-an-array with the
slot state unchanged. -/
theorem unmarshal_early_failure_atomic_witness :
    unmarshalStructFields (Json.obj [])
        [{ type := GoType.boolT, value := GoValue.boolV true }] =
      ([{ type := GoType.boolT, value := GoValue.boolV true }],
        some (BindError.notArray "JSON")) :=
  (unmarshal_early_failure_atomic (Json.obj [])
    [{ type := GoType.boolT, value := GoValue.boolV true }]).1
    (fun _ h => Json.noConfusion h)

/-- C9: on a pointer to a struct of n fields, structFieldsToFieldsSlice
returns without error the n field addresses in declaration order (the i-th
entry points at field i); on a non-pointer it returns an error naming the
actual kind (and no slice). -/
theorem structFields_slice_spec (v : ReflectValue) :
    (∀ fs, v = ReflectValue.ptrToStruct fs →
      structFieldsToFieldsSlice v = Except.ok (List.range fs.length) ∧
      (List.range fs.length).length = fs.length ∧
      ∀ i, i < fs.length → (List.range fs.length).getD i 0 = i) ∧
    (v.kind ≠ GoKind.ptrKind →
      structFieldsToFieldsSlice v =
        Except.error ("input argument must be a pointer, got " ++ v.kind.name)) := by
  constructor
  · intro fs hv
    subst hv
    refine ⟨rfl, List.length_range fs.length, fun i hi => ?_⟩
    rw [List.getD_eq_getElem _ _ (by simpa using hi)]
    simp
  · intro hk
    cases v with
    | ptrToStruct fs => exact absurd rfl hk
    | nonPtr k => rfl

/-- Witness for C9: a two-field struct pointer yields the addresses 0, 1;
an int argument is rejected naming the int kind. -/
theorem structFields_slice_spec_witness :
    structFieldsToFieldsSlice
        (ReflectValue.ptrToStruct
          [{ type := GoType.intT, value := GoValue.intV 0 },
           { type := GoType.stringT, value := GoValue.strV "" }]) =
      Except.ok [0, 1] ∧
    structFieldsToFieldsSlice (ReflectValue.nonPtr GoKind.intKind) =
      Except.error "input argument must be a pointer, got int" := by
  constructor
  · exact ((structFields_slice_spec _).1 _ rfl).1
  · exact (structFields_slice_spec (ReflectValue.nonPtr GoKind.intKind)).2
      (by decide)

/-! ## Claim theorem for Service1.Multiply -/

theorem wrap64_eq_of_bounds (x : Int) (h1 : -(2 ^ 63) ≤ x) (h2 : x < 2 ^ 63) :
    wrap64 x = x := by
  have e63 : (2 : Int) ^ 63 = 9223372036854775808 := by norm_num
  have e64 : (2 : Int) ^ 64 = 18446744073709551616 := by norm_num
  unfold wrap64
  rw [e63, e64] at *
  omega

/-- C8: Multiply never returns an error; an all-zero argument (in
particular the zero value bound when params are absent) yields the sentinel
9999, any other argument yields the product A*B (exactly, whenever the
product fits a 64-bit int); concretely A=4, B=2 gives 8 and A=0, B=0 gives
9999. -/
theorem multiply_spec (req : Service1Request) :
    (multiply req).2 = none ∧
    (req.A = 0 ∧ req.B = 0 →
      (multiply req).1.Result = Service1DefaultResponse) ∧
    (¬(req.A = 0 ∧ req.B = 0) →
      -(2 ^ 63) ≤ req.A * req.B → req.A * req.B < 2 ^ 63 →
      (multiply req).1.Result = req.A * req.B) ∧
    (multiply { A := 4, B := 2 }).1.Result = 8 ∧
    (multiply { A := 0, B := 0 }).1.Result = Service1DefaultResponse := by
  refine ⟨?_, ?_, ?_, ?_, ?_⟩
  · by_cases hz : req.A = 0 ∧ req.B = 0 <;> simp [multiply, hz]
  · intro hz
    simp [multiply, hz]
  · intro hz h1 h2
    simp only [multiply, if_neg hz]
    exact wrap64_eq_of_bounds _ h1 h2
  · have : ¬((4 : Int) = 0 ∧ (2 : Int) = 0) := by norm_num
    simp only [multiply, if_neg this]
    rw [show (4 : Int) * 2 = 8 by norm_num,
      wrap64_eq_of_bounds 8 (by norm_num) (by norm_num)]
  · simp [multiply]

/-- Witness for C8 at the concrete request A=4, B=2. -/
theorem multiply_spec_witness :
    (multiply { A := 4, B := 2 }).2 = none ∧
    (multiply { A := 4, B := 2 }).1.Result = 4 * 2 := by
  refine ⟨(multiply_spec { A := 4, B := 2 }).1, ?_⟩
  have h := (multiply_spec { A := 4, B := 2 }).2.2.1 (by norm_num)
    (by norm_num) (by norm_num)
  simpa using h

/-! ## Helper lemmas for the server pipeline -/

/-- The `getD` fallback response used in statements. -/
def emptyResponse : Response := { result := none, error := none, id := none }

/-- Field lookup on a JSON object; `none` on non-objects. -/
def jsonField (j : Json) (k : String) : Option Json :=
  match j with
  | Json.obj kvs => lookupKey kvs k
  | _ => none

theorem respondRecord_isSome_of_id (mapper : Option (GoError → GoError))
    (handler : String → Option Json → Except GoError Json)
    (r : RequestRecord) (h : r.id.isSome) :
    (respondRecord mapper handler r).isSome := by
  cases hid : r.id with
  | none => rw [hid] at h; simp at h
  | some idv =>
    simp only [respondRecord, hid]
    by_cases hv : r.valid
    · simp only [hv, if_true]
      cases handler r.method r.params <;> simp
    · simp [hv]

theorem respondRecord_id_eq (mapper : Option (GoError → GoError))
    (handler : String → Option Json → Except GoError Json)
    (r : RequestRecord) (resp : Response)
    (h : respondRecord mapper handler r = some resp) : resp.id = r.id := by
  cases hid : r.id with
  | none => simp [respondRecord, hid] at h
  | some idv =>
    simp only [respondRecord, hid] at h
    by_cases hv : r.valid
    · rw [if_pos hv] at h
      cases hh : handler r.method r.params <;> rw [hh] at h <;>
        simp_all <;> subst h <;> rfl
    · rw [if_neg hv] at h
      simp_all
      subst h
      rfl

theorem filterMap_allSome_length {α β : Type} (f : α → Option β) (l : List α)
    (h : ∀ x ∈ l, (f x).isSome) : (l.filterMap f).length = l.length := by
  induction l with
  | nil => rfl
  | cons a l ih =>
    have ha := h a (List.mem_cons_self a l)
    rw [Option.isSome_iff_exists] at ha
    obtain ⟨b, hb⟩ := ha
    rw [List.filterMap_cons_some hb, List.length_cons, List.length_cons,
      ih (fun x hx => h x (List.mem_cons_of_mem a hx))]

theorem filterMap_allSome_getD {α β : Type} (f : α → Option β) (l : List α)
    (h : ∀ x ∈ l, (f x).isSome) (d : α) (db : β) :
    ∀ i, i < l.length → f (l.getD i d) = some ((l.filterMap f).getD i db) := by
  induction l with
  | nil => intro i hi; simp at hi
  | cons a l ih =>
    intro i hi
    have ha := h a (List.mem_cons_self a l)
    rw [Option.isSome_iff_exists] at ha
    obtain ⟨b, hb⟩ := ha
    rw [List.filterMap_cons_some hb]
    cases i with
    | zero => simpa using hb
    | succ i =>
      simpa using ih (fun x hx => h x (List.mem_cons_of_mem a hx)) i
        (by simpa using hi)

/-! ## Claim theorems for the server pipeline and client encoding -/

/-- C4: a payload that is not valid JSON always produces exactly one
response, whose error code is `E_PARSE`, whose protocol-visible value is
-32700, for every mapper and handler and for every such byte sequence. -/
theorem invalid_json_single_parse_error (mapper : Option (GoError → GoError))
    (handler : String → Option Json → Except GoError Json) (raw : String) :
    processPayload mapper handler (RawPayload.invalid raw) =
      [{ result := none, error := some parseError, id := none }] ∧
    (processPayload mapper handler (RawPayload.invalid raw)).length = 1 ∧
    parseError.code = E_PARSE ∧
    E_PARSE = -32700 :=
  ⟨rfl, rfl, rfl, rfl⟩

/-- C3: under a codec built with a user-supplied error mapper, a handler
error the mapper turns into a typed Error is used verbatim as the response
error; a handler error left untyped by the mapper is wrapped with code
`E_SERVER` and the error text as message; and a malformed envelope gets the
fixed `E_INVALID_REQ` error, identical with and without a mapper — the
mapper is never applied to it. -/
theorem error_mapper_spec (mapper : GoError → GoError)
    (handler : String → Option Json → Except GoError Json)
    (r : RequestRecord) (idv : Json) (e : GoError) :
    (r.id = some idv → r.valid = true →
      handler r.method r.params = Except.error e →
      (∀ eo, mapper e = GoError.typed eo →
        respondRecord (some mapper) handler r =
          some { result := none, error := some eo, id := some idv }) ∧
      (∀ msg, mapper e = GoError.generic msg →
        respondRecord (some mapper) handler r =
          some { result := none,
                 error := some { code := E_SERVER, message := msg, data := none },
                 id := some idv })) ∧
    (r.id = some idv → r.valid = false →
      respondRecord (some mapper) handler r =
        some { result := none, error := some invalidRequestError,
               id := some idv } ∧
      invalidRequestError.code = E_INVALID_REQ ∧
      respondRecord (some mapper) handler r = respondRecord none handler r) := by
  constructor
  · intro hid hv hh
    constructor
    · intro eo heo
      simp [respondRecord, hid, hv, hh, encodeHandlerError, heo]
    · intro msg hmsg
      simp [respondRecord, hid, hv, hh, encodeHandlerError, hmsg]
  · intro hid hv
    refine ⟨by simp [respondRecord, hid, hv], rfl, by simp [respondRecord, hid, hv]⟩

/-- The error mapper of TestServiceWithErrorMapper: the designated error
value becomes a typed Error with code 100, everything else passes through. -/
def testErrorMapper : GoError → GoError
  | GoError.generic "mapped response error" =>
      GoError.typed { code := 100, message := "mapped response error", data := none }
  | e => e

/-- A handler that fails with the designated mapped error. -/
def mappedErrorHandler : String → Option Json → Except GoError Json :=
  fun _ _ => Except.error (GoError.generic "mapped response error")

/-- A handler that fails with an error the mapper leaves untouched. -/
def plainErrorHandler : String → Option Json → Except GoError Json :=
  fun _ _ => Except.error (GoError.generic "response error")

/-- A well-formed request record with id 1. -/
def validRecordOne : RequestRecord :=
  { method := "Service1.MappedResponseError", params := none,
    id := some (Json.num 1), valid := true }

/-- A malformed-envelope record (wrong version, no method) with id kept. -/
def invalidRecord : RequestRecord :=
  { method := "", params := none, id := some (Json.str "any"), valid := false }

/-- Witness for C3, mirroring TestServiceWithErrorMapper: the mapped error
comes back verbatim with code 100, the unmapped one with `E_SERVER`, and the
malformed envelope with `E_INVALID_REQ` independent of the mapper. -/
theorem error_mapper_spec_witness :
    respondRecord (some testErrorMapper) mappedErrorHandler validRecordOne =
      some { result := none,
             error := some { code := 100, message := "mapped response error",
                             data := none },
             id := some (Json.num 1) } ∧
    respondRecord (some testErrorMapper) plainErrorHandler validRecordOne =
      some { result := none,
             error := some { code := E_SERVER, message := "response error",
                             data := none },
             id := some (Json.num 1) } ∧
    respondRecord (some testErrorMapper) plainErrorHandler invalidRecord =
      some { result := none, error := some invalidRequestError,
             id := some (Json.str "any") } := by
  refine ⟨?_, ?_, ?_⟩
  · exact ((error_mapper_spec testErrorMapper mappedErrorHandler validRecordOne
      (Json.num 1) (GoError.generic "mapped response error")).1 rfl rfl rfl).1
      _ rfl
  · exact ((error_mapper_spec testErrorMapper plainErrorHandler validRecordOne
      (Json.num 1) (GoError.generic "response error")).1 rfl rfl rfl).2
      "response error" rfl
  · exact ((error_mapper_spec testErrorMapper plainErrorHandler invalidRecord
      (Json.str "any") (GoError.generic "response error")).2 rfl rfl).1

/-- C5 counterexample: the empty batch. Its zero requests all (vacuously)
carry a present id, yet the response array has one element — the fixed
invalid-request error the specification prescribes for `[]` — not zero. -/
theorem batch_empty_not_empty_response :
    processPayload none plainErrorHandler (RawPayload.valid (Json.arr [])) =
      [{ result := none, error := some invalidRequestError, id := none }] ∧
    (processPayload none plainErrorHandler
      (RawPayload.valid (Json.arr []))).length ≠ 0 :=
  ⟨rfl, Nat.one_ne_zero⟩

/-- C5 amended: for every non-empty batch of N requests each carrying a
present id, the response array has exactly N elements and the i-th response
echoes the i-th request's id; a request with absent id contributes no
response element. -/
theorem batch_order_preservation (mapper : Option (GoError → GoError))
    (handler : String → Option Json → Except GoError Json)
    (items : List Json) (hne : items ≠ [])
    (hid : ∀ j ∈ items, ((parseRecord j).id).isSome) :
    (processPayload mapper handler (RawPayload.valid (Json.arr items))).length =
      items.length ∧
    (∀ i, i < items.length →
      ((processPayload mapper handler
          (RawPayload.valid (Json.arr items))).getD i emptyResponse).id =
        (parseRecord (items.getD i Json.null)).id) ∧
    (∀ j, (parseRecord j).id = none →
      respondRecord mapper handler (parseRecord j) = none) := by
  have hnem : items.isEmpty = false := by
    cases items with
    | nil => exact absurd rfl hne
    | cons a l => rfl
  have hsome : ∀ j ∈ items,
      (respondRecord mapper handler (parseRecord j)).isSome :=
    fun j hj => respondRecord_isSome_of_id mapper handler (parseRecord j) (hid j hj)
  refine ⟨?_, ?_, ?_⟩
  · simp only [processPayload, hnem, Bool.false_eq_true, if_false]
    exact filterMap_allSome_length _ items hsome
  · intro i hi
    simp only [processPayload, hnem, Bool.false_eq_true, if_false]
    have hmem : items.getD i Json.null ∈ items := by
      rw [List.getD_eq_getElem _ _ hi]
      exact List.getElem_mem hi
    have hstep := filterMap_allSome_getD
      (fun j => respondRecord mapper handler (parseRecord j)) items hsome
      Json.null emptyResponse i hi
    exact (respondRecord_id_eq mapper handler _ _ hstep)
  · intro j hj
    simp [respondRecord, hj]

/-- First element of the witness batch: a valid request with id 1. -/
def batchItemOne : Json :=
  Json.obj [("jsonrpc", Json.str "2.0"), ("method", Json.str "Service1.Multiply"),
            ("id", Json.num 1)]

/-- Second element of the witness batch: a valid request with id 2. -/
def batchItemTwo : Json :=
  Json.obj [("jsonrpc", Json.str "2.0"), ("method", Json.str "Service1.Multiply"),
            ("id", Json.num 2)]

/-- A handler that always succeeds with a constant result. -/
def constHandler : String → Option Json → Except GoError Json :=
  fun _ _ => Except.ok (Json.num 0)

/-- Witness for the amended C5 at a concrete two-request batch with ids
1 and 2: two responses, ids echoed in order. -/
theorem batch_order_preservation_witness :
    (processPayload none constHandler
        (RawPayload.valid (Json.arr [batchItemOne, batchItemTwo]))).length = 2 ∧
    ((processPayload none constHandler
        (RawPayload.valid (Json.arr [batchItemOne, batchItemTwo]))).getD 0
      emptyResponse).id = some (Json.num 1) ∧
    ((processPayload none constHandler
        (RawPayload.valid (Json.arr [batchItemOne, batchItemTwo]))).getD 1
      emptyResponse).id = some (Json.num 2) := by
  have h := batch_order_preservation none constHandler [batchItemOne, batchItemTwo]
    (List.cons_ne_nil _ _)
    (by
      intro j hj
      rcases List.mem_cons.mp hj with rfl | hj2
      · rfl
      · rcases List.mem_cons.mp hj2 with rfl | hj3
        · rfl
        · exact absurd hj3 (List.not_mem_nil j))
  refine ⟨h.1, ?_, ?_⟩
  · rw [h.2.1 0 (by norm_num)]
    rfl
  · rw [h.2.1 1 (by norm_num)]
    rfl

/-- C6: encoding a client request for a given method and named-fields args
object and decoding it server-side recovers the original method name and the
original args; the envelope is structurally valid and carries the drawn id. -/
theorem encode_decode_roundtrip (method : String) (kvs : List (String × Json))
    (id : Nat) :
    (parseRecord (encodeClientRequest method (Json.obj kvs) id)).method =
      method ∧
    (parseRecord (encodeClientRequest method (Json.obj kvs) id)).params =
      some (Json.obj kvs) ∧
    (parseRecord (encodeClientRequest method (Json.obj kvs) id)).id =
      some (Json.num (Int.ofNat id)) ∧
    (parseRecord (encodeClientRequest method (Json.obj kvs) id)).valid = true := by
  refine ⟨?_, ?_, ?_, ?_⟩ <;>
    simp [encodeClientRequest, marshalClientRequest, parseRecord, lookupKey,
      asString]

/-- C7 counterexample: no clientRequest marshals without an id key — the Id
field is a plain uint64 under the json tag id, so absence of the id is not
representable, refuting representability of absent-vs-zero on this type. -/
theorem clientRequest_no_absent_id :
    ¬ ∃ c : ClientRequest, jsonField (marshalClientRequest c) "id" = none := by
  rintro ⟨c, h⟩
  simp [marshalClientRequest, jsonField, lookupKey] at h

/-- C7 amended: the client request envelope always carries a present id
field holding the numeric Id value — including Id = 0 — so a notification
(absent id) is not representable by clientRequest; absence is independent of
the numeric value only in the sense that it never occurs. -/
theorem clientRequest_id_always_present (c : ClientRequest) :
    jsonField (marshalClientRequest c) "id" = some (Json.num (Int.ofNat c.Id)) := by
  simp [marshalClientRequest, jsonField, lookupKey]

end Json2
